import Mathlib

/-!
Shallow embedding of the github-autocomplete widget (src/lib/github.ts and
src/components/autocomplete.tsx): the search gateway, the query
orchestrator (the useAutocomplete hook), and the interaction state machine
(keyboard, pointer and dismissal handlers of the Autocomplete component),
together with theorems settling the specification claims about them.
-/

namespace GithubAutocomplete

/-- Discriminant of the SearchResult union (SearchResultType in github.ts). -/
inductive SearchResultType where
  | user
  | repository
deriving DecidableEq, Repr

/-- Unified result shape from github.ts. The TS source is a union of
UserResult and RepositoryResult sharing a base; we flatten it into one
structure whose variant-specific fields are optional. `name` is modelled
as `Option String` because the merge comparator in autocomplete.tsx
(line 52) guards it with optional chaining (`a.name?.localeCompare(b.name ?? "")`);
the gateway mappers always populate it (see `mapGitHubUserToResult_name_some`). -/
structure SearchResult where
  id : String
  name : Option String
  type : SearchResultType
  url : String
  avatar : Option String := none
  owner : Option String := none
  ownerAvatar : Option String := none
  description : Option String := none
  stars : Option Nat := none
  forks : Option Nat := none
  language : Option String := none
deriving DecidableEq, Repr

/-- Raw GitHub user search item as consumed by mapGitHubUserToResult
(fields id, login, html_url, avatar_url of the REST response). -/
structure GithubUserItem where
  id : Nat
  login : String
  html_url : String
  avatar_url : String
deriving DecidableEq, Repr

/-- Raw repository owner sub-record (nullable in the REST response). -/
structure GithubOwner where
  login : String
  avatar_url : String
deriving DecidableEq, Repr

/-- Raw GitHub repository search item as consumed by mapGitHubRepoToResult. -/
structure GithubRepoItem where
  id : Nat
  name : String
  html_url : String
  owner : Option GithubOwner
  description : Option String
  stargazers_count : Nat
  forks_count : Nat
  language : Option String
deriving DecidableEq, Repr

/-- github.ts mapGitHubUserToResult. -/
def mapGitHubUserToResult (user : GithubUserItem) : SearchResult :=
  { id := toString user.id
    name := some user.login
    type := SearchResultType.user
    url := user.html_url
    avatar := some user.avatar_url }

/-- github.ts mapGitHubRepoToResult. -/
def mapGitHubRepoToResult (repo : GithubRepoItem) : SearchResult :=
  { id := toString repo.id
    name := some repo.name
    type := SearchResultType.repository
    url := repo.html_url
    owner := repo.owner.map GithubOwner.login
    ownerAvatar := repo.owner.map GithubOwner.avatar_url
    description := repo.description
    stars := some repo.stargazers_count
    forks := some repo.forks_count
    language := repo.language }

/-- Outcome of a gateway operation: the value returned (or the error
thrown, re-raised unchanged by the catch block in github.ts), paired with
whether the remote octokit call was performed at all. -/
structure GatewayOutcome where
  result : Except String (List SearchResult)
  remoteCalled : Bool
deriving Repr

/-- github.ts searchUsers. The `remote` parameter stands for the octokit
call `github.rest.search.users({ q: query, per_page: 50, sort: "followers",
order: "desc" })`: it maps the query to the items of the response, or to the
error the transport throws. The guard `!query || query.length < 3` returns
an empty list without touching the remote. -/
def searchUsers (remote : String → Except String (List GithubUserItem))
    (query : String) : GatewayOutcome :=
  if query = "" || query.length < 3 then
    { result := Except.ok [], remoteCalled := false }
  else
    match remote query with
    | Except.ok items =>
        { result := Except.ok (items.map mapGitHubUserToResult), remoteCalled := true }
    | Except.error e => { result := Except.error e, remoteCalled := true }

/-- github.ts searchRepositories, analogous to `searchUsers` with the
octokit call `github.rest.search.repos({ q: query, per_page: 50,
sort: "stars", order: "desc" })`. -/
def searchRepositories (remote : String → Except String (List GithubRepoItem))
    (query : String) : GatewayOutcome :=
  if query = "" || query.length < 3 then
    { result := Except.ok [], remoteCalled := false }
  else
    match remote query with
    | Except.ok items =>
        { result := Except.ok (items.map mapGitHubRepoToResult), remoteCalled := true }
    | Except.error e => { result := Except.error e, remoteCalled := true }

/-- Stable insertion of one element into an already sorted list: the new
element is placed before the first element that compares strictly greater,
and after all elements that compare equal, which gives the stable ordering
ECMAScript guarantees for Array.prototype.sort. -/
def insertSorted {α : Type} (cmp : α → α → Int) (x : α) : List α → List α
  | [] => [x]
  | y :: ys => if cmp x y < 0 then x :: y :: ys else y :: insertSorted cmp x ys

/-- Model of JavaScript Array.prototype.sort(cmp): a stable sort by the
comparator, realised as left-to-right stable insertion. -/
def jsSort {α : Type} (cmp : α → α → Int) (l : List α) : List α :=
  l.foldl (fun acc x => insertSorted cmp x acc) []

/-- The comparator of autocomplete.tsx line 52,
`(a, b) => a.name?.localeCompare(b.name ?? "") ?? 0`: when `a.name` is
absent the optional chain yields undefined and `?? 0` makes the comparison
0; otherwise `a.name` is locale-compared against `b.name ?? ""`.
`lc` abstracts String.prototype.localeCompare. -/
def cmpByName (lc : String → String → Int) (a b : SearchResult) : Int :=
  match a.name with
  | none => 0
  | some an => lc an (b.name.getD "")

/-- Comparator following the spec text: entries with a missing `name`
compare as the empty string on either side. -/
def specCmpByName (lc : String → String → Int) (a b : SearchResult) : Int :=
  lc (a.name.getD "") (b.name.getD "")

/-- A code-point comparator used to instantiate the abstract localeCompare
in concrete evaluations. -/
def localeCompareDefault (a b : String) : Int :=
  if a < b then -1 else if b < a then 1 else 0

/-- Observable state of one react-query query as read by useAutocomplete:
`data` is `none` while the query has not yet produced a value. -/
structure QueryObs where
  data : Option (List SearchResult)
  isLoading : Bool
  isFetching : Bool
  error : Option String
deriving DecidableEq, Repr

/-- Return value of the useAutocomplete hook. -/
structure AutocompleteData where
  results : List SearchResult
  loading : Bool
  fetching : Bool
  error : Option String
deriving DecidableEq, Repr

/-- autocomplete.tsx useAutocomplete, lines 48-60: `usersQuery.data || []`
and `reposQuery.data || []` are concatenated (users first), sorted by the
name comparator and truncated with `.slice(0, 50)`; loading, fetching and
error are the disjunctions / first-non-null of the two queries. -/
def useAutocomplete (lc : String → String → Int)
    (usersQuery reposQuery : QueryObs) : AutocompleteData :=
  let users := usersQuery.data.getD []
  let repositories := reposQuery.data.getD []
  { results := (jsSort (cmpByName lc) (users ++ repositories)).take 50
    loading := usersQuery.isLoading || reposQuery.isLoading
    fetching := usersQuery.isFetching || reposQuery.isFetching
    error := usersQuery.error.orElse (fun _ => reposQuery.error) }

/-- Merged list as the spec describes it: concatenation of account results
followed by repository results, re-sorted ascending by name (missing names
comparing as the empty string), truncated to the first 50 entries. -/
def specMergedResults (lc : String → String → Int)
    (users repos : List SearchResult) : List SearchResult :=
  (jsSort (specCmpByName lc) (users ++ repos)).take 50

/-- Component state of the Autocomplete component that the interaction
handlers read and write: the merged result list and fetching flag coming
from useAutocomplete, the selectedIndex cursor (-1 meaning no selection)
and the focused flag controlling dropdown visibility. -/
structure AState where
  results : List SearchResult
  fetching : Bool
  selectedIndex : Int
  focused : Bool
deriving DecidableEq, Repr

/-- Imperative side effects the handlers can fire: `window.open(url, "_blank")`
and `inputRef.current?.blur()`. -/
inductive Effect where
  | openUrl (url : String)
  | blurInput
deriving DecidableEq, Repr

/-- Keys distinguished by handleKeyDown; `other` covers every other key. -/
inductive Key where
  | arrowDown
  | arrowUp
  | enter
  | escape
  | other
deriving DecidableEq, Repr

/-- autocomplete.tsx navigateDown (lines 281-286): advance the cursor by
one unless it already sits at `results.length - 1`. -/
def navigateDown (resultsLength : Nat) (prev : Int) : Int :=
  if prev < (resultsLength : Int) - 1 then prev + 1 else prev

/-- autocomplete.tsx navigateUp (lines 288-293): decrement the cursor,
clamped to a floor of 0. -/
def navigateUp (prev : Int) : Int :=
  if prev > 0 then prev - 1 else 0

/-- autocomplete.tsx handleSelectResult (lines 295-298): open the result's
url in a new context and blur the input; no state field is written. -/
def handleSelectResult (r : SearchResult) (s : AState) : AState × List Effect :=
  (s, [Effect.openUrl r.url, Effect.blurInput])

/-- autocomplete.tsx handleKeyDown (lines 308-342). The guard
`if (!results.length || fetching) return;` drops every key, Escape
included, when the result list is empty or a fetch is in flight. Enter
fires handleSelectResult only when `selectedIndex >= 0 && selectedIndex <
results.length`; Escape sets focused to false and blurs the input. -/
def handleKeyDown (k : Key) (s : AState) : AState × List Effect :=
  if s.results.length == 0 || s.fetching then (s, [])
  else
    match k with
    | Key.arrowDown =>
        ({ s with selectedIndex := navigateDown s.results.length s.selectedIndex }, [])
    | Key.arrowUp =>
        ({ s with selectedIndex := navigateUp s.selectedIndex }, [])
    | Key.enter =>
        if 0 ≤ s.selectedIndex ∧ s.selectedIndex < (s.results.length : Int) then
          match s.results.get? s.selectedIndex.toNat with
          | some r => handleSelectResult r s
          | none => (s, [])
        else (s, [])
    | Key.escape => ({ s with focused := false }, [Effect.blurInput])
    | Key.other => (s, [])

/-- Events the Autocomplete component reacts to: a keydown on the input,
the document-level mousedown landing outside the container (lines 353-367),
mouse entering result row i (handleMouseEnter), a click on result row i,
the input gaining focus (`onFocus={() => setFocused(true)}`), the fetching
flag changing (with the useEffect of lines 275-279 resetting selectedIndex
to -1 when fetching turns false), and new merged results arriving from the
hook. -/
inductive Event where
  | keyDown (k : Key)
  | clickOutside
  | mouseEnterResult (i : Nat)
  | clickResult (i : Nat)
  | inputFocus
  | setFetching (b : Bool)
  | setResults (rs : List SearchResult)
deriving DecidableEq, Repr

/-- One step of the Autocomplete interaction machine: dispatch an event to
the handler the component wires it to, returning the new state and the
side effects fired. -/
def step (e : Event) (s : AState) : AState × List Effect :=
  match e with
  | Event.keyDown k => handleKeyDown k s
  | Event.clickOutside => ({ s with focused := false }, [])
  | Event.mouseEnterResult i => ({ s with selectedIndex := (i : Int) }, [])
  | Event.clickResult i =>
      match s.results.get? i with
      | some r => handleSelectResult r s
      | none => (s, [])
  | Event.inputFocus => ({ s with focused := true }, [])
  | Event.setFetching b =>
      ({ s with fetching := b
                selectedIndex := if b then s.selectedIndex else -1 }, [])
  | Event.setResults rs => ({ s with results := rs }, [])

/-- Fold a sequence of keydown events through handleKeyDown, keeping only
the state (used for the keyboard-bounds invariant). -/
def applyKeys (ks : List Key) (s : AState) : AState :=
  ks.foldl (fun st k => (handleKeyDown k st).1) s

/-- Content the SearchResults component can render inside the dropdown
container. -/
inductive DropdownItem where
  | errorMessage (msg : String)
  | noResultsMessage (query : String)
  | resultsList (items : List SearchResult)
  | typeAtLeastMessage
deriving DecidableEq, Repr

/-- autocomplete.tsx SearchResults (lines 159-218) as a render function:
`none` models the early `return null` when a fetch is in flight with no
results; otherwise the dropdown holds, in order, the error message when an
error is present, the `No results found for "query"` message when there is
no error, `debouncedQuery.length > 3` and the list is empty, the result
list when non-empty, and the `Type at least 3 characters` message when
`debouncedQuery.length < 3`. -/
def searchResultsView (results : List SearchResult) (fetching : Bool)
    (error : Option String) (debouncedQuery : String) :
    Option (List DropdownItem) :=
  if fetching && results.length == 0 then none
  else
    some (
      (match error with
       | some m => [DropdownItem.errorMessage m]
       | none => []) ++
      (if error = none ∧ debouncedQuery.length > 3 ∧ results.length == 0 then
        [DropdownItem.noResultsMessage debouncedQuery]
      else []) ++
      (if results.length > 0 then [DropdownItem.resultsList results] else []) ++
      (if debouncedQuery.length < 3 then [DropdownItem.typeAtLeastMessage] else []))

/-- Sample raw user record from the remote search response. -/
def rawUserJohn : GithubUserItem :=
  { id := 1234, login := "johnsmith"
    html_url := "https://github.com/johnsmith"
    avatar_url := "https://avatars.githubusercontent.com/u/1234" }

/-- Sample raw repository record from the remote search response. -/
def rawRepoCoolLib : GithubRepoItem :=
  { id := 42, name := "cool-lib"
    html_url := "https://github.com/janesmith/cool-lib"
    owner := some { login := "janesmith"
                    avatar_url := "https://avatars.githubusercontent.com/u/5678" }
    description := some "A cool library"
    stargazers_count := 500, forks_count := 50
    language := some "JavaScript" }

/-- Sample user result, as produced by the gateway for a user record. -/
def userJohn : SearchResult := mapGitHubUserToResult rawUserJohn

/-- Sample repository result, as produced by the gateway for a repo record. -/
def repoCoolLib : SearchResult := mapGitHubRepoToResult rawRepoCoolLib

/-- Interaction state with an empty result list and no fetch in flight. -/
def sEmptyFocused : AState :=
  { results := [], fetching := false, selectedIndex := -1, focused := true }

/-- Interaction state amid a fetch, with a result row and the dropdown open. -/
def sFetchingFocused : AState :=
  { results := [userJohn], fetching := true, selectedIndex := 0, focused := true }

/-- Interaction state with two settled results and no selection yet. -/
def sTwoResults : AState :=
  { results := [userJohn, repoCoolLib], fetching := false, selectedIndex := -1,
    focused := true }

/-- Query observation for a resolved users query holding one result. -/
def usersResolvedObs : QueryObs :=
  { data := some [userJohn], isLoading := false, isFetching := false, error := none }

/-- Query observation for a repositories query still in its first flight. -/
def reposPendingObs : QueryObs :=
  { data := none, isLoading := true, isFetching := true, error := none }

/-- C7: a query that is empty or shorter than 3 characters makes both
gateway operations return an empty list as a successful value, without the
remote octokit call being performed. -/
theorem searchShortCircuitUnderThree
    (remoteU : String → Except String (List GithubUserItem))
    (remoteR : String → Except String (List GithubRepoItem))
    (query : String) (h : query.length < 3) :
    searchUsers remoteU query = { result := Except.ok [], remoteCalled := false }
    ∧ searchRepositories remoteR query
        = { result := Except.ok [], remoteCalled := false } := by
  constructor <;> simp [searchUsers, searchRepositories, h]

/-- Witness for C7 at the concrete query "ab". -/
theorem searchShortCircuitUnderThree_witness :
    searchUsers (fun _ => Except.ok []) "ab"
        = { result := Except.ok [], remoteCalled := false }
    ∧ searchRepositories (fun _ => Except.ok []) "ab"
        = { result := Except.ok [], remoteCalled := false } :=
  searchShortCircuitUnderThree _ _ "ab" (by decide)

/-- C5: with an empty result list or a fetch in flight, handleKeyDown
ignores every key: the state is returned unchanged and no effect fires. -/
theorem keyboardIgnoredWhenEmptyOrFetching (k : Key) (s : AState)
    (h : s.results = [] ∨ s.fetching = true) :
    handleKeyDown k s = (s, []) := by
  rcases h with h | h <;> simp [handleKeyDown, h]

/-- Witness for C5: Escape on a focused state with an empty list is a no-op. -/
theorem keyboardIgnoredWhenEmptyOrFetching_witness :
    handleKeyDown Key.escape sEmptyFocused = (sEmptyFocused, []) :=
  keyboardIgnoredWhenEmptyOrFetching Key.escape sEmptyFocused (Or.inl rfl)

/-- C10: from selectedIndex = -1 with a non-empty result list and no fetch
in flight, one ArrowDown and one ArrowUp each select index 0. -/
theorem firstNavigationSelectsFirstItem (s : AState) (hres : s.results ≠ [])
    (hf : s.fetching = false) (hsel : s.selectedIndex = -1) :
    (handleKeyDown Key.arrowDown s).1.selectedIndex = 0
    ∧ (handleKeyDown Key.arrowUp s).1.selectedIndex = 0 := by
  have hlen : 0 < s.results.length := List.length_pos.mpr hres
  have hlen' : s.results.length ≠ 0 := Nat.pos_iff_ne_zero.mp hlen
  constructor <;>
    simp [handleKeyDown, hf, hlen', navigateDown, navigateUp, hsel]

/-- Witness for C10 on a concrete two-result state. -/
theorem firstNavigationSelectsFirstItem_witness :
    (sTwoResults.results ≠ [] ∧ sTwoResults.fetching = false
      ∧ sTwoResults.selectedIndex = -1)
    ∧ (handleKeyDown Key.arrowDown sTwoResults).1.selectedIndex = 0
    ∧ (handleKeyDown Key.arrowUp sTwoResults).1.selectedIndex = 0 :=
  ⟨⟨by decide, rfl, rfl⟩,
    firstNavigationSelectsFirstItem sTwoResults (by decide) rfl rfl⟩

/-- Counterexample to C2 as stated: with a fetch in flight, the Escape key
is swallowed by the guard of handleKeyDown, so the machine does not return
to Idle — focused stays true. -/
theorem escapeIgnoredWhileFetching :
    (handleKeyDown Key.escape sFetchingFocused).1.focused = true
    ∧ sFetchingFocused.fetching = true ∧ sFetchingFocused.focused = true :=
  ⟨rfl, rfl, rfl⟩

/-- C2 as amended: an outside mousedown always forces focused to false,
regardless of fetch state and of the result list; the Escape key forces
focused to false and blurs the input when the result list is non-empty and
no fetch is in flight, and is otherwise ignored entirely. -/
theorem dismissBehaviour :
    (∀ s : AState, (step Event.clickOutside s).1.focused = false)
    ∧ (∀ s : AState, s.results ≠ [] → s.fetching = false →
        (handleKeyDown Key.escape s).1.focused = false
        ∧ (handleKeyDown Key.escape s).2 = [Effect.blurInput])
    ∧ (∀ s : AState, s.results = [] ∨ s.fetching = true →
        handleKeyDown Key.escape s = (s, [])) := by
  refine ⟨fun s => rfl, fun s hres hf => ?_, fun s h => ?_⟩
  · have hlen : s.results.length ≠ 0 := fun h => hres (List.length_eq_zero.mp h)
    constructor <;> simp [handleKeyDown, hf, hlen]
  · rcases h with h | h <;> simp [handleKeyDown, h]

/-- Witness for the amended C2: an outside mousedown dismisses even while
fetching, and Escape dismisses a settled non-empty state. -/
theorem dismissBehaviour_witness :
    (step Event.clickOutside sFetchingFocused).1.focused = false
    ∧ (sTwoResults.results ≠ [] ∧ sTwoResults.fetching = false)
    ∧ (handleKeyDown Key.escape sTwoResults).1.focused = false
    ∧ (handleKeyDown Key.escape sTwoResults).2 = [Effect.blurInput] :=
  ⟨dismissBehaviour.1 sFetchingFocused,
    ⟨by decide, rfl⟩,
    (dismissBehaviour.2.1 sTwoResults (by decide) rfl).1,
    (dismissBehaviour.2.1 sTwoResults (by decide) rfl).2⟩

/-- Counterexample to C3 as stated: with the users query resolved to one
result and the repositories query still pending (data absent, isFetching),
the orchestrator's result list is that one user result, not empty — the
partial result is exposed. -/
theorem partialResultsExposed :
    (useAutocomplete localeCompareDefault usersResolvedObs reposPendingObs).results
        = [userJohn]
    ∧ reposPendingObs.data = none ∧ reposPendingObs.isFetching = true :=
  ⟨rfl, rfl, rfl⟩

/-- C3 as amended: while one gateway call has no data yet, the
orchestrator's result list is the sorted, truncated list of the other
call's data alone — results from a single resolved source are exposed, and
the two-source merge appears only once both queries hold data. -/
theorem singleSourceResultsWhilePending (lc : String → String → Int)
    (uq rq : QueryObs) :
    (rq.data = none →
      (useAutocomplete lc uq rq).results
        = (jsSort (cmpByName lc) (uq.data.getD [])).take 50)
    ∧ (uq.data = none →
      (useAutocomplete lc uq rq).results
        = (jsSort (cmpByName lc) (rq.data.getD [])).take 50) := by
  constructor <;> intro h <;> simp [useAutocomplete, h]

/-- Witness for the amended C3 at the concrete pending/resolved pair. -/
theorem singleSourceResultsWhilePending_witness :
    reposPendingObs.data = none
    ∧ (useAutocomplete localeCompareDefault usersResolvedObs reposPendingObs).results
        = (jsSort (cmpByName localeCompareDefault)
            (usersResolvedObs.data.getD [])).take 50 :=
  ⟨rfl, (singleSourceResultsWhilePending localeCompareDefault usersResolvedObs
          reposPendingObs).1 rfl⟩

/-- C6 evaluated at the boundary: for the three-character query "abc" with
a settled fetch, zero results and no error, the dropdown renders with no
content at all — in particular no no-results message — because the render
condition in SearchResults uses debouncedQuery.length > 3. -/
theorem noResultsBoundaryEval :
    searchResultsView [] false none "abc" = some []
    ∧ 3 ≤ "abc".length := by
  constructor
  · rfl
  · decide

lemma applyKeys_nil (s : AState) : applyKeys [] s = s := rfl

lemma applyKeys_cons (k : Key) (ks : List Key) (s : AState) :
    applyKeys (k :: ks) s = applyKeys ks (handleKeyDown k s).1 := rfl

/-- handleKeyDown writes only selectedIndex and focused: the result list
and the fetching flag are untouched by every key. -/
lemma handleKeyDown_frame (k : Key) (s : AState) :
    (handleKeyDown k s).1.results = s.results
    ∧ (handleKeyDown k s).1.fetching = s.fetching := by
  cases k with
  | enter =>
    simp only [handleKeyDown]
    split
    · exact ⟨rfl, rfl⟩
    · split
      · cases hget : s.results.get? s.selectedIndex.toNat <;>
          simp [handleSelectResult, hget]
      · exact ⟨rfl, rfl⟩
  | arrowDown => simp only [handleKeyDown]; split <;> exact ⟨rfl, rfl⟩
  | arrowUp => simp only [handleKeyDown]; split <;> exact ⟨rfl, rfl⟩
  | escape => simp only [handleKeyDown]; split <;> exact ⟨rfl, rfl⟩
  | other => simp only [handleKeyDown]; split <;> exact ⟨rfl, rfl⟩

/-- One accepted ArrowDown or ArrowUp keeps the cursor within
[0, results.length - 1] whenever it starts within [-1, results.length - 1]. -/
lemma navStep_bounds (k : Key) (s : AState) (hres : s.results ≠ [])
    (hf : s.fetching = false) (hk : k = Key.arrowDown ∨ k = Key.arrowUp)
    (h4 : -1 ≤ s.selectedIndex)
    (h5 : s.selectedIndex ≤ (s.results.length : Int) - 1) :
    0 ≤ (handleKeyDown k s).1.selectedIndex
    ∧ (handleKeyDown k s).1.selectedIndex ≤ (s.results.length : Int) - 1 := by
  have hlen : 0 < s.results.length := List.length_pos.mpr hres
  have hlen' : s.results.length ≠ 0 := Nat.pos_iff_ne_zero.mp hlen
  rcases hk with hk | hk <;> subst hk <;>
    simp [handleKeyDown, hf, hlen', navigateDown, navigateUp] <;>
    constructor <;> split <;> omega

/-- Once the cursor is non-negative and in bounds, any further sequence of
navigation keys keeps it non-negative. -/
lemma applyKeys_nonneg (ks : List Key) (s : AState) (hres : s.results ≠ [])
    (hf : s.fetching = false)
    (hks : ∀ k ∈ ks, k = Key.arrowDown ∨ k = Key.arrowUp)
    (h0 : 0 ≤ s.selectedIndex)
    (h5 : s.selectedIndex ≤ (s.results.length : Int) - 1) :
    0 ≤ (applyKeys ks s).selectedIndex := by
  induction ks generalizing s with
  | nil => exact h0
  | cons k ks ih =>
    have hstep := navStep_bounds k s hres hf (hks k (List.mem_cons_self k ks))
      (by omega) h5
    have hframe := handleKeyDown_frame k s
    have hres' : (handleKeyDown k s).1.results ≠ [] := by
      rw [hframe.1]; exact hres
    have hf' : (handleKeyDown k s).1.fetching = false := by
      rw [hframe.2]; exact hf
    have hks' : ∀ k' ∈ ks, k' = Key.arrowDown ∨ k' = Key.arrowUp :=
      fun k' hk' => hks k' (List.mem_cons_of_mem k hk')
    have h5' : (handleKeyDown k s).1.selectedIndex
        ≤ ((handleKeyDown k s).1.results.length : Int) - 1 := by
      rw [hframe.1]; exact hstep.2
    rw [applyKeys_cons]
    exact ih (handleKeyDown k s).1 hres' hf' hks' hstep.1 h5'

/-- Invariant underlying the keyboard-bounds claim, proved over an
arbitrary sequence of navigation keys. -/
lemma applyKeys_bounds (ks : List Key) (s : AState) (hres : s.results ≠ [])
    (hf : s.fetching = false)
    (hks : ∀ k ∈ ks, k = Key.arrowDown ∨ k = Key.arrowUp)
    (h4 : -1 ≤ s.selectedIndex)
    (h5 : s.selectedIndex ≤ (s.results.length : Int) - 1) :
    (-1 ≤ (applyKeys ks s).selectedIndex
      ∧ (applyKeys ks s).selectedIndex ≤ (s.results.length : Int) - 1)
    ∧ (ks ≠ [] → 0 ≤ (applyKeys ks s).selectedIndex) := by
  induction ks generalizing s with
  | nil => exact ⟨⟨h4, h5⟩, fun h => absurd rfl h⟩
  | cons k ks ih =>
    have hstep := navStep_bounds k s hres hf (hks k (List.mem_cons_self k ks)) h4 h5
    have hframe := handleKeyDown_frame k s
    have hres' : (handleKeyDown k s).1.results ≠ [] := by
      rw [hframe.1]; exact hres
    have hf' : (handleKeyDown k s).1.fetching = false := by
      rw [hframe.2]; exact hf
    have hks' : ∀ k' ∈ ks, k' = Key.arrowDown ∨ k' = Key.arrowUp :=
      fun k' hk' => hks k' (List.mem_cons_of_mem k hk')
    have h4' : -1 ≤ (handleKeyDown k s).1.selectedIndex := by
      have := hstep.1; omega
    have h5' : (handleKeyDown k s).1.selectedIndex
        ≤ ((handleKeyDown k s).1.results.length : Int) - 1 := by
      rw [hframe.1]; exact hstep.2
    have ih' := ih (handleKeyDown k s).1 hres' hf' hks' h4' h5'
    rw [hframe.1] at ih'
    refine ⟨by rw [applyKeys_cons]; exact ih'.1, fun _ => ?_⟩
    rw [applyKeys_cons]
    exact applyKeys_nonneg ks (handleKeyDown k s).1 hres' hf' hks' hstep.1 h5'

/-- C4: starting anywhere in the reachable cursor range [-1, n-1] of a
non-empty, settled result list, any sequence of ArrowDown/ArrowUp commands
keeps selectedIndex at most n-1 and at least -1, and any non-empty such
sequence leaves it at least 0 — repeated downs clamp at the last index
without wrapping and repeated ups clamp at the first. -/
theorem keyboardNavigationBounds (s : AState) (ks : List Key)
    (hres : s.results ≠ []) (hf : s.fetching = false)
    (hks : ∀ k ∈ ks, k = Key.arrowDown ∨ k = Key.arrowUp)
    (h4 : -1 ≤ s.selectedIndex)
    (h5 : s.selectedIndex ≤ (s.results.length : Int) - 1) :
    ((applyKeys ks s).selectedIndex ≤ (s.results.length : Int) - 1
      ∧ -1 ≤ (applyKeys ks s).selectedIndex)
    ∧ (ks ≠ [] → 0 ≤ (applyKeys ks s).selectedIndex) := by
  have h := applyKeys_bounds ks s hres hf hks h4 h5
  exact ⟨⟨h.1.2, h.1.1⟩, h.2⟩

/-- Witness for C4: three ArrowDowns over the two-element list stay within
bounds (the spec scenario where the cursor stabilises at index 1). -/
theorem keyboardNavigationBounds_witness :
    (sTwoResults.results ≠ [] ∧ sTwoResults.fetching = false
      ∧ (∀ k ∈ [Key.arrowDown, Key.arrowDown, Key.arrowDown],
          k = Key.arrowDown ∨ k = Key.arrowUp)
      ∧ -1 ≤ sTwoResults.selectedIndex
      ∧ sTwoResults.selectedIndex ≤ (sTwoResults.results.length : Int) - 1)
    ∧ (((applyKeys [Key.arrowDown, Key.arrowDown, Key.arrowDown]
          sTwoResults).selectedIndex ≤ (sTwoResults.results.length : Int) - 1
        ∧ -1 ≤ (applyKeys [Key.arrowDown, Key.arrowDown, Key.arrowDown]
            sTwoResults).selectedIndex)
      ∧ ([Key.arrowDown, Key.arrowDown, Key.arrowDown] ≠ ([] : List Key) →
          0 ≤ (applyKeys [Key.arrowDown, Key.arrowDown, Key.arrowDown]
            sTwoResults).selectedIndex)) :=
  ⟨⟨by decide, rfl, by decide, by decide, by decide⟩,
    keyboardNavigationBounds sTwoResults _ (by decide) rfl (by decide)
      (by decide) (by decide)⟩

/-- Every key other than Escape leaves the focused flag unchanged. -/
lemma handleKeyDown_focused (k : Key) (s : AState) (hk : k ≠ Key.escape) :
    (handleKeyDown k s).1.focused = s.focused := by
  cases k with
  | enter =>
    simp only [handleKeyDown]
    split
    · rfl
    · split
      · cases hget : s.results.get? s.selectedIndex.toNat <;>
          simp [handleSelectResult, hget]
      · rfl
  | arrowDown => simp only [handleKeyDown]; split <;> rfl
  | arrowUp => simp only [handleKeyDown]; split <;> rfl
  | escape => exact absurd rfl hk
  | other => simp only [handleKeyDown]; split <;> rfl

/-- The Enter branch of handleKeyDown never writes any state field: the
returned state is the input state in every case. -/
lemma handleKeyDown_enter_state (s : AState) :
    (handleKeyDown Key.enter s).1 = s := by
  simp only [handleKeyDown]
  split
  · rfl
  · split
    · cases hget : s.results.get? s.selectedIndex.toNat <;>
        simp [handleSelectResult, hget]
    · rfl

/-- C8: with the command accepted (non-empty results, no fetch in flight),
Enter fires its side effects exactly when 0 ≤ selectedIndex <
results.length, and when it fires it opens exactly the url of the result
at selectedIndex and blurs the input; out of bounds it changes nothing and
fires nothing. -/
theorem commitFiresExactlyInBounds (s : AState) (hres : s.results ≠ [])
    (hf : s.fetching = false) :
    ((0 ≤ s.selectedIndex ∧ s.selectedIndex < (s.results.length : Int)) →
      ∃ r, s.results.get? s.selectedIndex.toNat = some r
        ∧ handleKeyDown Key.enter s
            = (s, [Effect.openUrl r.url, Effect.blurInput]))
    ∧ (¬(0 ≤ s.selectedIndex ∧ s.selectedIndex < (s.results.length : Int)) →
      handleKeyDown Key.enter s = (s, [])) := by
  have hlen : s.results.length ≠ 0 := fun h => hres (List.length_eq_zero.mp h)
  constructor
  · rintro ⟨h0, h1⟩
    have hlt : s.selectedIndex.toNat < s.results.length := by omega
    obtain ⟨r, hr⟩ : ∃ r, s.results.get? s.selectedIndex.toNat = some r :=
      ⟨s.results.get ⟨s.selectedIndex.toNat, hlt⟩, List.get?_eq_get hlt⟩
    refine ⟨r, hr, ?_⟩
    have hr2 : s.results[s.selectedIndex.toNat]? = some r := by
      rw [← List.get?_eq_getElem?]; exact hr
    rw [List.getElem?_eq_getElem hlt] at hr2
    simp [handleKeyDown, hf, hlen, h0, h1, hr, handleSelectResult,
      Option.some.inj hr2]
  · intro h
    simp [handleKeyDown, hf, hlen, h]

/-- Witness for C8 on the two-result state with index 1 selected: Enter
opens the url of the second result. -/
theorem commitFiresExactlyInBounds_witness :
    ((sTwoResults.results ≠ [] ∧ sTwoResults.fetching = false)
      ∧ (0 ≤ (1 : Int) ∧ (1 : Int) < (sTwoResults.results.length : Int)))
    ∧ (∃ r, ({ sTwoResults with selectedIndex := 1 } : AState).results.get?
          (1 : Int).toNat = some r
        ∧ handleKeyDown Key.enter { sTwoResults with selectedIndex := 1 }
            = ({ sTwoResults with selectedIndex := 1 },
                [Effect.openUrl r.url, Effect.blurInput])) :=
  ⟨⟨⟨by decide, rfl⟩, by decide⟩,
    (commitFiresExactlyInBounds { sTwoResults with selectedIndex := 1 }
      (by decide) rfl).1 (by decide)⟩

/-- C9: handleSelectResult (the shared commit path of Enter and of a row
click) opens the result's url and blurs the input while returning every
state field, the focused flag included, unchanged; the Enter and
row-click events leave the whole state untouched; and the only events
that can take focused from true to false are the Escape keydown and the
outside mousedown. -/
theorem commitLeavesFocusUnchanged :
    (∀ (r : SearchResult) (s : AState),
      handleSelectResult r s = (s, [Effect.openUrl r.url, Effect.blurInput]))
    ∧ (∀ (s : AState) (i : Nat),
      (step (Event.clickResult i) s).1 = s
        ∧ (step (Event.keyDown Key.enter) s).1 = s)
    ∧ (∀ (e : Event) (s : AState), s.focused = true →
      (step e s).1.focused = false →
      e = Event.keyDown Key.escape ∨ e = Event.clickOutside) := by
  refine ⟨fun r s => rfl, fun s i => ⟨?_, handleKeyDown_enter_state s⟩,
    fun e s hf hf' => ?_⟩
  · simp only [step]
    cases s.results.get? i <;> simp [handleSelectResult]
  · cases e with
    | keyDown k =>
      cases k with
      | escape => exact Or.inl rfl
      | arrowDown =>
        rw [step, handleKeyDown_focused Key.arrowDown s (by simp)] at hf'
        simp [hf] at hf'
      | arrowUp =>
        rw [step, handleKeyDown_focused Key.arrowUp s (by simp)] at hf'
        simp [hf] at hf'
      | enter =>
        rw [step, handleKeyDown_focused Key.enter s (by simp)] at hf'
        simp [hf] at hf'
      | other =>
        rw [step, handleKeyDown_focused Key.other s (by simp)] at hf'
        simp [hf] at hf'
    | clickOutside => exact Or.inr rfl
    | mouseEnterResult i => simp [step, hf] at hf'
    | clickResult i =>
      rw [step] at hf'
      revert hf'
      cases s.results.get? i <;> simp [handleSelectResult, hf]
    | inputFocus => simp [step] at hf'
    | setFetching b => simp [step, hf] at hf'
    | setResults rs => simp [step, hf] at hf'

/-- Witness for C9: an outside mousedown on a focused state drops focus,
and the third conjunct certifies it is one of the two dismissal events. -/
theorem commitLeavesFocusUnchanged_witness :
    sTwoResults.focused = true
    ∧ (step Event.clickOutside sTwoResults).1.focused = false
    ∧ (Event.clickOutside = Event.keyDown Key.escape
        ∨ Event.clickOutside = Event.clickOutside) :=
  ⟨rfl, rfl,
    commitLeavesFocusUnchanged.2.2 Event.clickOutside sTwoResults rfl rfl⟩

/-- Inserting with two comparators that agree on the inserted element
gives the same list. -/
lemma insertSorted_congr {α : Type} (cmp1 cmp2 : α → α → Int) (x : α)
    (h : ∀ y, cmp1 x y = cmp2 x y) (l : List α) :
    insertSorted cmp1 x l = insertSorted cmp2 x l := by
  induction l with
  | nil => rfl
  | cons y ys ih => simp only [insertSorted, h y, ih]

lemma jsSort_foldl_congr {α : Type} (cmp1 cmp2 : α → α → Int)
    (l : List α) (h : ∀ x ∈ l, ∀ y, cmp1 x y = cmp2 x y) (acc : List α) :
    l.foldl (fun a x => insertSorted cmp1 x a) acc
      = l.foldl (fun a x => insertSorted cmp2 x a) acc := by
  induction l generalizing acc with
  | nil => rfl
  | cons z zs ih =>
    simp only [List.foldl_cons]
    rw [insertSorted_congr cmp1 cmp2 z (h z (List.mem_cons_self z zs)) acc]
    exact ih (fun x hx y => h x (List.mem_cons_of_mem z hx) y) _

/-- Sorting with two comparators that agree on every element of the list
gives the same list. -/
lemma jsSort_congr {α : Type} (cmp1 cmp2 : α → α → Int) (l : List α)
    (h : ∀ x ∈ l, ∀ y, cmp1 x y = cmp2 x y) :
    jsSort cmp1 l = jsSort cmp2 l :=
  jsSort_foldl_congr cmp1 cmp2 l h []

/-- On an entry whose name is present, the code's comparator coincides
with the spec's missing-name-as-empty-string comparator. -/
lemma cmpByName_eq_spec (lc : String → String → Int) (a b : SearchResult)
    (h : a.name.isSome) : cmpByName lc a b = specCmpByName lc a b := by
  cases hn : a.name with
  | none => rw [hn] at h; exact absurd h (by simp)
  | some an => simp [cmpByName, specCmpByName, hn]

/-- The user mapper always populates the name field. -/
lemma mapGitHubUserToResult_name_some (u : GithubUserItem) :
    (mapGitHubUserToResult u).name.isSome = true := rfl

/-- The repository mapper always populates the name field. -/
lemma mapGitHubRepoToResult_name_some (r : GithubRepoItem) :
    (mapGitHubRepoToResult r).name.isSome = true := rfl

/-- C1: for every pair of result lists produced by the gateway mappers,
the orchestrator's merged result list is the concatenation of the account
results followed by the repository results, re-sorted ascending by name
under the locale comparator (with a missing name comparing as the empty
string, which the mappers never produce) and truncated to the first 50
entries. -/
theorem mergedResultsMatchSpec (lc : String → String → Int)
    (rawUsers : List GithubUserItem) (rawRepos : List GithubRepoItem)
    (uq rq : QueryObs)
    (hu : uq.data = some (rawUsers.map mapGitHubUserToResult))
    (hr : rq.data = some (rawRepos.map mapGitHubRepoToResult)) :
    (useAutocomplete lc uq rq).results
      = specMergedResults lc (rawUsers.map mapGitHubUserToResult)
          (rawRepos.map mapGitHubRepoToResult) := by
  simp only [useAutocomplete, hu, hr, Option.getD_some, specMergedResults]
  refine congrArg (List.take 50) ?_
  refine jsSort_congr _ _ _ ?_
  intro x hx y
  refine cmpByName_eq_spec lc x y ?_
  rcases List.mem_append.mp hx with hx | hx <;>
    obtain ⟨a, _, rfl⟩ := List.mem_map.mp hx
  · exact mapGitHubUserToResult_name_some a
  · exact mapGitHubRepoToResult_name_some a

/-- Query observation for a resolved repositories query with one result. -/
def reposResolvedObs : QueryObs :=
  { data := some [repoCoolLib], isLoading := false, isFetching := false,
    error := none }

/-- Witness for C1 at one concrete user and one concrete repository. -/
theorem mergedResultsMatchSpec_witness :
    (usersResolvedObs.data = some ([rawUserJohn].map mapGitHubUserToResult)
      ∧ reposResolvedObs.data = some ([rawRepoCoolLib].map mapGitHubRepoToResult))
    ∧ (useAutocomplete localeCompareDefault usersResolvedObs
          reposResolvedObs).results
        = specMergedResults localeCompareDefault
            ([rawUserJohn].map mapGitHubUserToResult)
            ([rawRepoCoolLib].map mapGitHubRepoToResult) :=
  ⟨⟨rfl, rfl⟩,
    mergedResultsMatchSpec localeCompareDefault [rawUserJohn] [rawRepoCoolLib]
      usersResolvedObs reposResolvedObs rfl rfl⟩

end GithubAutocomplete
